import Mathlib

/-!
Shallow embedding of the Feishu/Lark channel plugin core logic:
the account registry (accounts.ts), the inbound message gate
(monitor.ts: handleIncomingMessage, isAllowed) and the outbound
media degradation (send.ts: sendMediaFeishu).
-/

namespace Feishu

/-- A mention entry of an inbound Feishu message event, restricted to the
fields the handler reads: the display name and the sender identifiers. -/
structure Mention where
  name : String
  openId : Option String := none
  userId : Option String := none
deriving DecidableEq

/-- Per-group override record (types.ts FeishuGroupConfig). -/
structure GroupConfig where
  allow : Option Bool := none
  users : Option (List String) := none
deriving DecidableEq

/-- DM sub-policy record (types.ts FeishuDmConfig). -/
structure DmConfig where
  enabled : Option Bool := none
  policy : Option String := none
  allowFrom : Option (List String) := none
deriving DecidableEq

/-- One account configuration record (types.ts FeishuAccountConfig).
Absent JSON keys are modelled as none. -/
structure AccountConfig where
  enabled : Option Bool := none
  name : Option String := none
  appId : Option String := none
  appSecret : Option String := none
  domain : Option String := none
  encryptKey : Option String := none
  verificationToken : Option String := none
  dm : Option DmConfig := none
  groupPolicy : Option String := none
  groups : Option (List (String × GroupConfig)) := none
  groupAllowFrom : Option (List String) := none
deriving DecidableEq

/-- The channel section (types.ts FeishuChannelConfig): the base account
record plus the named-accounts mapping, modelled as an association list
in declaration order. -/
structure ChannelConfig extends AccountConfig where
  accounts : Option (List (String × AccountConfig)) := none
deriving DecidableEq

/-- The slice of the host configuration the registry reads
(cfg.channels.feishu, none when the section is missing). -/
structure CoreConfig where
  feishu : Option ChannelConfig := none
deriving DecidableEq

/-- The process environment variables consulted by resolveFeishuAccount,
in the source spelling FEISHU_* (primary vendor) and LARK_* (alias vendor). -/
structure Env where
  feishuAppId : Option String := none
  feishuAppSecret : Option String := none
  feishuEncryptKey : Option String := none
  feishuVerificationToken : Option String := none
  larkAppId : Option String := none
  larkAppSecret : Option String := none
  larkEncryptKey : Option String := none
  larkVerificationToken : Option String := none
deriving DecidableEq

/-- Modelled from the spec: the fixed sentinel default account id imported
from the external host plugin SDK (clawdbot/plugin-sdk), which is not part
of this repository. The claims depend only on it being a fixed string. -/
def DEFAULT_ACCOUNT_ID : String := "default"

/-- JavaScript string truthiness of an optional string field:
undefined and the empty string are falsy. -/
def truthyStr : Option String → Bool
  | none => false
  | some s => s != ""

/-- Insertion into a JS Set projected back to a list: keeps first
insertion order and ignores duplicates. -/
def insertUnique (ids : List String) (id : String) : List String :=
  if ids.contains id then ids else ids ++ [id]

/-- accounts.ts listFeishuAccountIds. -/
def listFeishuAccountIds (cfg : CoreConfig) : List String :=
  match cfg.feishu with
  | none => []
  | some fc =>
    let ids : List String := []
    let ids :=
      if truthyStr fc.appId || truthyStr fc.appSecret then
        insertUnique ids DEFAULT_ACCOUNT_ID
      else ids
    let ids := (fc.accounts.getD []).foldl (fun acc p => insertUnique acc p.1) ids
    if ids.length == 0 && fc.enabled != some false then
      insertUnique ids DEFAULT_ACCOUNT_ID
    else ids

/-- accounts.ts resolveDefaultFeishuAccountId. -/
def resolveDefaultFeishuAccountId (cfg : CoreConfig) : String :=
  (listFeishuAccountIds cfg).headD DEFAULT_ACCOUNT_ID

/-- JS spread merge of two partial account records,
mergedConfig = spread of baseConfig then accountConfig:
each field of the named account, when present, wins over the base field. -/
def mergeConfig (base acc : AccountConfig) : AccountConfig where
  enabled := acc.enabled <|> base.enabled
  name := acc.name <|> base.name
  appId := acc.appId <|> base.appId
  appSecret := acc.appSecret <|> base.appSecret
  domain := acc.domain <|> base.domain
  encryptKey := acc.encryptKey <|> base.encryptKey
  verificationToken := acc.verificationToken <|> base.verificationToken
  dm := acc.dm <|> base.dm
  groupPolicy := acc.groupPolicy <|> base.groupPolicy
  groups := acc.groups <|> base.groups
  groupAllowFrom := acc.groupAllowFrom <|> base.groupAllowFrom

/-- Lookup of a named account entry (object property access
feishuConfig.accounts[resolvedAccountId]). -/
def lookupAccount (accs : List (String × AccountConfig)) (id : String) :
    Option AccountConfig :=
  (accs.find? (fun p => p.1 == id)).map (fun p => p.2)

/-- The runtime account view returned by resolveFeishuAccount
(types.ts ResolvedFeishuAccount). -/
structure ResolvedAccount where
  accountId : String
  name : Option String
  enabled : Bool
  configured : Bool
  appId : Option String
  appSecret : Option String
  domain : String
  encryptKey : Option String
  verificationToken : Option String
  config : AccountConfig
deriving DecidableEq

/-- accounts.ts resolveFeishuAccount, with the process environment made an
explicit argument. The nullish-coalescing env fallback is Option orElse:
a present-but-empty config string is kept (and later fails truthiness). -/
def resolveFeishuAccount (env : Env) (cfg : CoreConfig)
    (accountId : Option String) : ResolvedAccount :=
  let resolvedAccountId := accountId.getD (resolveDefaultFeishuAccountId cfg)
  let feishuConfig := cfg.feishu
  let accountConfig : Option AccountConfig :=
    if resolvedAccountId != DEFAULT_ACCOUNT_ID then
      feishuConfig.bind (fun fc => lookupAccount (fc.accounts.getD []) resolvedAccountId)
    else none
  let baseConfig : AccountConfig :=
    (feishuConfig.map ChannelConfig.toAccountConfig).getD {}
  let mergedConfig :=
    match accountConfig with
    | some acc => mergeConfig baseConfig acc
    | none => baseConfig
  let appId := mergedConfig.appId <|> env.feishuAppId <|> env.larkAppId
  let appSecret := mergedConfig.appSecret <|> env.feishuAppSecret <|> env.larkAppSecret
  let domain := mergedConfig.domain.getD "feishu"
  let encryptKey := mergedConfig.encryptKey <|> env.feishuEncryptKey <|> env.larkEncryptKey
  let verificationToken :=
    mergedConfig.verificationToken <|> env.feishuVerificationToken <|> env.larkVerificationToken
  let configured := truthyStr appId && truthyStr appSecret
  let enabled := mergedConfig.enabled != some false && configured
  { accountId := resolvedAccountId
    name := mergedConfig.name
    enabled := enabled
    configured := configured
    appId := appId
    appSecret := appSecret
    domain := domain
    encryptKey := encryptKey
    verificationToken := verificationToken
    config := mergedConfig }

/-- ASCII case lowering of one character, the semantics the
case-insensitive regex flag gives to the ASCII-only patterns used here. -/
def jsLowerChar (c : Char) : Char :=
  if c.toNat ≥ 65 && c.toNat ≤ 90 then Char.ofNat (c.toNat + 32) else c

/-- String lowering (String.prototype.toLowerCase on the ASCII range). -/
def jsToLower (s : String) : String := ⟨s.data.map jsLowerChar⟩

/-- Whitespace class of String.prototype.trim, restricted to the ASCII
whitespace characters that occur in this domain. -/
def jsIsWhitespace (c : Char) : Bool :=
  c == ' ' || c == '\t' || c == '\n' || c == '\r'

/-- String.prototype.trim. -/
def jsTrim (s : String) : String :=
  ⟨((s.data.dropWhile jsIsWhitespace).reverse.dropWhile jsIsWhitespace).reverse⟩

/-- Drop of the first n characters of a string. -/
def strDropChars (s : String) (n : Nat) : String := ⟨s.data.drop n⟩

/-- Prefix test between strings at the character level. -/
def strIsPrefix (p s : String) : Bool := p.data.isPrefixOf s.data

/-- monitor.ts isAllowed helper: entry.replace of the anchored
case-insensitive regex matching feishu or lark followed by a colon, first
match only. The match is recognized case-insensitively; the stripped
remainder keeps its original case. -/
def stripVendorTag (s : String) : String :=
  if strIsPrefix "feishu:" (jsToLower s) then strDropChars s 7
  else if strIsPrefix "lark:" (jsToLower s) then strDropChars s 5
  else s

/-- monitor.ts isAllowed. -/
def isAllowed (id : String) (allowList : List String) : Bool :=
  allowList.contains "*" ||
  allowList.any (fun entry =>
    let normalized := jsTrim (stripVendorTag entry)
    normalized == id || normalized == "*")

/-- One inbound im.message.receive_v1 event, restricted to the fields the
handler reads. The content field models the JSON parse of message.content
followed by the text projection with the empty-string default: none stands
for an unparseable payload, some t for the parsed text. -/
structure MessageEvent where
  senderOpenId : Option String := none
  senderUserId : Option String := none
  messageId : String := ""
  chatId : String := ""
  threadId : Option String := none
  parentId : Option String := none
  chatType : String := ""
  messageType : String := ""
  content : Option String := none
  mentions : Option (List Mention) := none
deriving DecidableEq

/-- The policy parameters monitorFeishuProvider computes from the resolved
account and hands to handleIncomingMessage. The host mention patterns are
abstract text predicates (RegExp.test). -/
structure PolicyParams where
  accountId : String := DEFAULT_ACCOUNT_ID
  dmEnabled : Bool := true
  dmPolicy : String := "pairing"
  allowFrom : List String := []
  groupPolicy : String := "allowlist"
  groupsConfig : List (String × GroupConfig) := []
  groupAllowFrom : List String := []
  mentionRegexes : List (String → Bool) := []

/-- Object property access groupsConfig[chatId]. -/
def lookupGroup (groups : List (String × GroupConfig)) (chatId : String) :
    Option GroupConfig :=
  (groups.find? (fun p => p.1 == chatId)).map (fun p => p.2)

/-- The context handed to the host auto-reply pipeline when a message is
accepted (the argument of core.channel.autoReply.handleIncomingMessage).
The fields fromId and toId render the source keys named from and to. -/
structure ReplyContext where
  channel : String
  accountId : String
  fromId : String
  toId : String
  body : String
  chatType : String
  messageId : String
  replyToId : Option String
  threadId : Option String
  mentionedJids : List String
deriving DecidableEq

/-- Observable result of one handleIncomingMessage call: either the handler
returns early (dropped, carrying the log line it emits, none for the silent
empty-text return) or it forwards the message to the auto-reply pipeline. -/
inductive HandleOutcome where
  | dropped (log : Option String)
  | forwarded (ctx : ReplyContext)
deriving DecidableEq

/-- The direct-message gate of handleIncomingMessage: the body of the
if isDirectMessage block. Returns the drop log on an early return, none
when the message falls through to the rest of the handler. -/
def dmGate (p : PolicyParams) (senderId : String) : Option String :=
  if !p.dmEnabled then
    some "DM disabled, ignoring message"
  else if p.dmPolicy == "disabled" then
    some "DM policy is disabled, ignoring message"
  else if p.dmPolicy == "allowlist" && !isAllowed senderId p.allowFrom then
    some ("Sender " ++ senderId ++ " not in allowlist")
  else if p.dmPolicy == "pairing" && !isAllowed senderId p.allowFrom then
    some ("Sender " ++ senderId ++ " not paired")
  else none

/-- The group gate of handleIncomingMessage: the body of the
if isGroupMessage block. -/
def groupGate (p : PolicyParams) (senderId chatId text : String)
    (mentions : Option (List Mention)) : Option String :=
  if p.groupPolicy == "disabled" then
    some "Group policy is disabled, ignoring message"
  else if p.groupPolicy == "allowlist" then
    let groupConfig := lookupGroup p.groupsConfig chatId
    if !((groupConfig.bind GroupConfig.allow).getD false) then
      some ("Group " ++ chatId ++ " not in allowlist")
    else
      let users := (groupConfig.bind GroupConfig.users).getD []
      if users.length > 0 then
        if !isAllowed senderId users then
          some ("Sender " ++ senderId ++ " not allowed in group " ++ chatId)
        else none
      else if p.groupAllowFrom.length > 0 && !isAllowed senderId p.groupAllowFrom then
        some ("Sender " ++ senderId ++ " not in groupAllowFrom")
      else none
  else if p.groupPolicy == "open" then
    let isMentioned := (mentions.map (fun ms => ms.any (fun m => m.name == "bot"))).getD false
    let textMentioned := p.mentionRegexes.any (fun re => re text)
    if !isMentioned && !textMentioned then
      some "Bot not mentioned in group message, ignoring"
    else none
  else none

/-- Sender id extraction: sender.sender_id.open_id, else user_id, else the
empty string. -/
def eventSenderId (ev : MessageEvent) : String :=
  ev.senderOpenId.getD (ev.senderUserId.getD "")

/-- The auto-reply context built at the accept end of
handleIncomingMessage. -/
def forwardContext (p : PolicyParams) (ev : MessageEvent) (text : String) :
    ReplyContext where
  channel := "feishu"
  accountId := p.accountId
  fromId := eventSenderId ev
  toId := ev.chatId
  body := text
  chatType := if ev.chatType == "p2p" then "direct" else "group"
  messageId := ev.messageId
  replyToId := ev.parentId
  threadId := ev.threadId
  mentionedJids :=
    (ev.mentions.map (fun ms => ms.map (fun m => m.openId.getD (m.userId.getD "")))).getD []

/-- monitor.ts handleIncomingMessage as a pure decision function. -/
def handleIncomingMessage (p : PolicyParams) (ev : MessageEvent) : HandleOutcome :=
  let senderId := eventSenderId ev
  if ev.messageType != "text" then
    .dropped (some ("Ignoring non-text message type: " ++ ev.messageType))
  else
    match ev.content with
    | none => .dropped (some "Failed to parse message content")
    | some text =>
      if jsTrim text == "" then .dropped none
      else
        let dmDrop := if ev.chatType == "p2p" then dmGate p senderId else none
        match dmDrop with
        | some msg => .dropped (some msg)
        | none =>
          let groupDrop :=
            if ev.chatType == "group" then
              groupGate p senderId ev.chatId text ev.mentions
            else none
          match groupDrop with
          | some msg => .dropped (some msg)
          | none => .forwarded (forwardContext p ev text)

/-- send.ts sendMediaFeishu body composition: caption, newline, url when
the caption is truthy, the url alone otherwise. -/
def mediaMessageText (text mediaUrl : String) : String :=
  if text != "" then text ++ "\n" ++ mediaUrl else mediaUrl

/-- Options record of the outbound send calls. -/
structure SendOptions where
  replyToId : Option String := none
  accountId : Option String := none
deriving DecidableEq

/-- send.ts sendMediaFeishu, parameterized by the underlying
sendMessageFeishu network call it delegates to. -/
def sendMediaFeishu {ρ : Type} (sendMessage : String → String → SendOptions → ρ)
    (target text mediaUrl : String) (options : SendOptions) : ρ :=
  sendMessage target (mediaMessageText text mediaUrl) options

/-- The allowlist match as the spec words it, stated for comparison with
the implemented isAllowed: an entry matches when its prefix-stripped,
trimmed, lower-cased value is identical to the sender id or is the
wildcard. -/
def specAllowMatch (id : String) (allowList : List String) : Bool :=
  allowList.any (fun entry =>
    let normalized := jsToLower (jsTrim (stripVendorTag entry))
    normalized == id || normalized == "*")

/-- A probe send collaborator that returns the message body it was asked
to deliver, used to observe what sendMediaFeishu sends. -/
def recordBody : String → String → SendOptions → String :=
  fun _ body _ => body

/-- A direct text message from a sender with no allowlist entry. -/
def strangerDm : MessageEvent where
  senderOpenId := some "ou_stranger"
  messageId := "om_1"
  chatId := "oc_dm"
  chatType := "p2p"
  messageType := "text"
  content := some "hi"

/-- Policy parameters with the default pairing DM policy and an empty
allowlist. -/
def pairingParams : PolicyParams :=
  { dmPolicy := "pairing", allowFrom := [] }

/-- The same parameters under the allowlist DM policy. -/
def allowlistParams : PolicyParams :=
  { pairingParams with dmPolicy := "allowlist" }

/-- Unfolding of the handler on a well-formed text message: the result is
the DM gate, then the group gate, then the forward to the auto-reply
pipeline. -/
theorem handleIncomingMessage_text_eq (p : PolicyParams) (ev : MessageEvent)
    (text : String) (hm : ev.messageType = "text") (hc : ev.content = some text)
    (ht : jsTrim text ≠ "") :
    handleIncomingMessage p ev =
      match (if ev.chatType == "p2p" then dmGate p (eventSenderId ev) else none) with
      | some msg => .dropped (some msg)
      | none =>
        match (if ev.chatType == "group" then
            groupGate p (eventSenderId ev) ev.chatId text ev.mentions
          else none) with
        | some msg => .dropped (some msg)
        | none => .forwarded (forwardContext p ev text) := by
  unfold handleIncomingMessage
  rw [hm, hc]
  simp [ht]

/-- Specialization of the unfolding to direct messages. -/
theorem handleIncomingMessage_dm_eq (p : PolicyParams) (ev : MessageEvent)
    (text : String) (hm : ev.messageType = "text") (hc : ev.content = some text)
    (ht : jsTrim text ≠ "") (hg : ev.chatType = "p2p") :
    handleIncomingMessage p ev =
      match dmGate p (eventSenderId ev) with
      | some msg => .dropped (some msg)
      | none => .forwarded (forwardContext p ev text) := by
  rw [handleIncomingMessage_text_eq p ev text hm hc ht, hg]
  simp

/-- Specialization of the unfolding to group messages. -/
theorem handleIncomingMessage_group_eq (p : PolicyParams) (ev : MessageEvent)
    (text : String) (hm : ev.messageType = "text") (hc : ev.content = some text)
    (ht : jsTrim text ≠ "") (hg : ev.chatType = "group") :
    handleIncomingMessage p ev =
      match groupGate p (eventSenderId ev) ev.chatId text ev.mentions with
      | some msg => .dropped (some msg)
      | none => .forwarded (forwardContext p ev text) := by
  rw [handleIncomingMessage_text_eq p ev text hm hc ht, hg]
  simp

/-- C1: evaluating the handler at the failing input (a direct text message
from ou_stranger under the pairing DM policy with an empty allowFrom list)
shows the message is simply dropped, exactly as the allowlist policy drops
it; only the debug log text differs and no pairing-required outcome or
pairing-code issuance exists in the code path. -/
theorem dmPairingDropsLikeAllowlistReject :
    handleIncomingMessage pairingParams strangerDm =
      .dropped (some "Sender ou_stranger not paired") ∧
    handleIncomingMessage allowlistParams strangerDm =
      .dropped (some "Sender ou_stranger not in allowlist") := by
  exact ⟨by decide, by decide⟩

/-- C2 counterexample: under the unrecognized DM policy string weird with an
empty allowlist, the message from ou_stranger is forwarded to the auto-reply
pipeline even though the allowlist policy rejects the same message, so an
unrecognized policy does not degrade to allowlist semantics. -/
theorem unrecognizedDmPolicyAcceptsCounterexample :
    handleIncomingMessage { pairingParams with dmPolicy := "weird" } strangerDm =
      .forwarded (forwardContext { pairingParams with dmPolicy := "weird" }
        strangerDm "hi") ∧
    handleIncomingMessage allowlistParams strangerDm =
      .dropped (some "Sender ou_stranger not in allowlist") := by
  exact ⟨by decide, by decide⟩

/-- C2 amended: the evaluator is a total function that never throws, but a
policy string outside the recognized set falls through every check and the
message is forwarded unconditionally (open semantics): a direct message is
forwarded whatever the allowFrom list, and a group message is forwarded
whatever the group configuration, global group allowlist or mention state. -/
theorem unrecognizedPolicyActsAsOpen (p : PolicyParams) (ev : MessageEvent)
    (text : String) (hm : ev.messageType = "text") (hc : ev.content = some text)
    (ht : jsTrim text ≠ "") :
    (ev.chatType = "p2p" → p.dmEnabled = true → p.dmPolicy ≠ "disabled" →
      p.dmPolicy ≠ "allowlist" → p.dmPolicy ≠ "pairing" →
      handleIncomingMessage p ev = .forwarded (forwardContext p ev text)) ∧
    (ev.chatType = "group" → p.groupPolicy ≠ "disabled" →
      p.groupPolicy ≠ "allowlist" → p.groupPolicy ≠ "open" →
      handleIncomingMessage p ev = .forwarded (forwardContext p ev text)) := by
  constructor
  · intro hg hdme hd ha hpair
    rw [handleIncomingMessage_dm_eq p ev text hm hc ht hg]
    unfold dmGate
    simp [hdme, hd, ha, hpair]
  · intro hg hd ha ho
    rw [handleIncomingMessage_group_eq p ev text hm hc ht hg]
    unfold groupGate
    simp [hd, ha, ho]

/-- C2 witness: the amended theorem applied to the concrete unrecognized
DM policy weird. -/
theorem unrecognizedPolicyActsAsOpenWitness :
    handleIncomingMessage { pairingParams with dmPolicy := "weird" } strangerDm =
      .forwarded (forwardContext { pairingParams with dmPolicy := "weird" }
        strangerDm "hi") :=
  (unrecognizedPolicyActsAsOpen { pairingParams with dmPolicy := "weird" }
      strangerDm "hi" rfl rfl (by decide)).1 rfl rfl (by decide) (by decide) (by decide)

/-- C3 counterexample: the allowlist entry OU_1 does not match the sender
ou_1 in the implemented isAllowed, although the normalization the claim
describes (prefix-stripped, trimmed, lower-cased) makes the two identical,
so the matching is not case-insensitive. -/
theorem isAllowedNotCaseInsensitiveCounterexample :
    isAllowed "ou_1" ["OU_1"] = false ∧
    specAllowMatch "ou_1" ["OU_1"] = true := by
  exact ⟨by decide, by decide⟩

/-- C3 amended: isAllowed accepts a sender and an allowlist exactly when
some entry, after case-insensitive vendor-prefix stripping and trimming but
with its original letter case kept, is character-identical to the sender id
or equals the wildcard; consequently entry LARK:ou_1 matches sender ou_1
and a wildcard entry matches every sender, but the comparison of the
stripped value itself is case-sensitive. -/
theorem isAllowedCharacterization :
    (∀ id l, isAllowed id l = true ↔
      ∃ e ∈ l, jsTrim (stripVendorTag e) = id ∨ jsTrim (stripVendorTag e) = "*") ∧
    isAllowed "ou_1" ["LARK:ou_1"] = true ∧
    (∀ id l₁ l₂, isAllowed id (l₁ ++ "*" :: l₂) = true) := by
  refine ⟨fun id l => ?_, by decide, fun id l₁ l₂ => ?_⟩
  · unfold isAllowed
    simp only [Bool.or_eq_true, List.any_eq_true, beq_iff_eq, List.elem_iff]
    constructor
    · rintro (hstar | ⟨e, he, h⟩)
      · exact ⟨"*", hstar, Or.inr (by decide)⟩
      · exact ⟨e, he, h⟩
    · rintro ⟨e, he, h⟩
      exact Or.inr ⟨e, he, h⟩
  · unfold isAllowed
    simp only [Bool.or_eq_true, List.any_eq_true, beq_iff_eq]
    refine Or.inr ⟨"*", by simp, Or.inr (by decide)⟩

/-- C9 counterexample: with an empty caption, sendMediaFeishu hands the
bare media url to the text sender, not caption plus newline plus url. -/
theorem sendMediaEmptyCaptionCounterexample :
    sendMediaFeishu recordBody "oc_1" "" "http://x/img.png" {} = "http://x/img.png" ∧
    "http://x/img.png" ≠ "" ++ "\n" ++ "http://x/img.png" := by
  exact ⟨by decide, by decide⟩

/-- C9 amended: sendMediaFeishu never uploads media; it always delegates to
the given text send call and returns its result unchanged, with body
caption newline url when the caption is non-empty and the bare url when the
caption is empty. -/
theorem sendMediaDegradesToText {ρ : Type} (send : String → String → SendOptions → ρ)
    (target caption url : String) (options : SendOptions) :
    (caption ≠ "" → sendMediaFeishu send target caption url options =
      send target (caption ++ "\n" ++ url) options) ∧
    (caption = "" → sendMediaFeishu send target caption url options =
      send target url options) := by
  unfold sendMediaFeishu mediaMessageText
  constructor
  · intro h
    simp [h]
  · intro h
    simp [h]

/-- C9 witness: the amended theorem applied to a concrete caption and url
with the body-recording sender. -/
theorem sendMediaDegradesToTextWitness :
    sendMediaFeishu recordBody "oc_1" "pic" "http://x/img.png" {} =
      "pic" ++ "\n" ++ "http://x/img.png" :=
  (sendMediaDegradesToText recordBody "oc_1" "pic" "http://x/img.png" {}).1
    (by decide)

/-- C10: a text message whose parsed text trims to the empty string is
dropped with no log and no call into the auto-reply pipeline, for every
policy configuration, before any DM or group policy check can run. -/
theorem emptyTextDroppedBeforePolicy (p : PolicyParams) (ev : MessageEvent)
    (text : String) (hm : ev.messageType = "text") (hc : ev.content = some text)
    (ht : jsTrim text = "") :
    handleIncomingMessage p ev = .dropped none := by
  unfold handleIncomingMessage
  rw [hm, hc]
  simp [ht]

/-- An Option Bool read with the false default is false unless the value is
explicitly true. -/
theorem getD_false_eq_false {o : Option Bool} (h : o ≠ some true) :
    o.getD false = false := by
  cases o with
  | none => rfl
  | some b =>
    cases b with
    | false => rfl
    | true => exact absurd rfl h

/-- The group gate under the allowlist group policy. -/
theorem groupGate_allowlist (p : PolicyParams) (sid chatId text : String)
    (mentions : Option (List Mention)) (hp : p.groupPolicy = "allowlist") :
    groupGate p sid chatId text mentions =
      (let groupConfig := lookupGroup p.groupsConfig chatId
      if !((groupConfig.bind GroupConfig.allow).getD false) then
        some ("Group " ++ chatId ++ " not in allowlist")
      else
        let users := (groupConfig.bind GroupConfig.users).getD []
        if users.length > 0 then
          if !isAllowed sid users then
            some ("Sender " ++ sid ++ " not allowed in group " ++ chatId)
          else none
        else if p.groupAllowFrom.length > 0 && !isAllowed sid p.groupAllowFrom then
          some ("Sender " ++ sid ++ " not in groupAllowFrom")
        else none) := by
  unfold groupGate
  simp [hp]

/-- C4: on a group text message under the allowlist group policy, the
handler rejects when the chat has no GroupConfig entry or its allow flag is
not true, whatever groupAllowFrom holds; with an allowed chat whose users
list is non-empty the sender is accepted exactly when it matches that list,
the global list being ignored; with an allowed chat and an empty or absent
users list the sender is accepted exactly when groupAllowFrom is empty or
matches the sender. -/
theorem groupAllowlistPolicyCharacterization (p : PolicyParams) (ev : MessageEvent)
    (text : String) (hm : ev.messageType = "text") (hc : ev.content = some text)
    (ht : jsTrim text ≠ "") (hg : ev.chatType = "group")
    (hp : p.groupPolicy = "allowlist") :
    ((lookupGroup p.groupsConfig ev.chatId).bind GroupConfig.allow ≠ some true →
      handleIncomingMessage p ev =
        .dropped (some ("Group " ++ ev.chatId ++ " not in allowlist"))) ∧
    (∀ g, lookupGroup p.groupsConfig ev.chatId = some g → g.allow = some true →
      g.users.getD [] ≠ [] →
      (isAllowed (eventSenderId ev) (g.users.getD []) = true →
        handleIncomingMessage p ev = .forwarded (forwardContext p ev text)) ∧
      (isAllowed (eventSenderId ev) (g.users.getD []) = false →
        handleIncomingMessage p ev =
          .dropped (some ("Sender " ++ eventSenderId ev ++ " not allowed in group "
            ++ ev.chatId)))) ∧
    (∀ g, lookupGroup p.groupsConfig ev.chatId = some g → g.allow = some true →
      g.users.getD [] = [] →
      ((p.groupAllowFrom = [] ∨ isAllowed (eventSenderId ev) p.groupAllowFrom = true) →
        handleIncomingMessage p ev = .forwarded (forwardContext p ev text)) ∧
      (p.groupAllowFrom ≠ [] → isAllowed (eventSenderId ev) p.groupAllowFrom = false →
        handleIncomingMessage p ev =
          .dropped (some ("Sender " ++ eventSenderId ev ++ " not in groupAllowFrom")))) := by
  rw [handleIncomingMessage_group_eq p ev text hm hc ht hg]
  rw [groupGate_allowlist p (eventSenderId ev) ev.chatId text ev.mentions hp]
  refine ⟨fun h1 => ?_, fun g hlook hallow hne => ⟨fun hyes => ?_, fun hno => ?_⟩,
    fun g hlook hallow hemp => ⟨fun hok => ?_, fun hgne hgno => ?_⟩⟩
  · simp [getD_false_eq_false h1]
  · simp [hlook, hallow, List.length_pos.mpr hne, hyes]
  · simp [hlook, hallow, List.length_pos.mpr hne, hno]
  · rcases hok with hnil | hyes
    · simp [hlook, hallow, hemp, hnil]
    · simp [hlook, hallow, hemp, hyes]
  · simp [hlook, hallow, hemp, hgno, List.length_pos.mpr hgne]

/-- Concrete allowlist group setup: chat oc_g allows users ou_1 only, while
the global group allowlist holds ou_2. -/
def groupListParams : PolicyParams where
  groupPolicy := "allowlist"
  groupsConfig := [("oc_g", { allow := some true, users := some ["ou_1"] })]
  groupAllowFrom := ["ou_2"]

/-- A group text message in chat oc_g from sender ou_2. -/
def groupMsgFromOu2 : MessageEvent where
  senderOpenId := some "ou_2"
  messageId := "om_2"
  chatId := "oc_g"
  chatType := "group"
  messageType := "text"
  content := some "hi"

/-- C4 witness: the per-group users list takes precedence, so ou_2 is
rejected although it is in groupAllowFrom. -/
theorem groupAllowlistPolicyCharacterizationWitness :
    handleIncomingMessage groupListParams groupMsgFromOu2 =
      .dropped (some "Sender ou_2 not allowed in group oc_g") := by
  have h := (groupAllowlistPolicyCharacterization groupListParams groupMsgFromOu2
    "hi" rfl rfl (by decide) rfl rfl).2.1
    { allow := some true, users := some ["ou_1"] } (by decide) rfl (by decide)
  exact h.2 (by decide)

/-- The group gate under the open group policy. -/
theorem groupGate_open (p : PolicyParams) (sid chatId text : String)
    (mentions : Option (List Mention)) (hp : p.groupPolicy = "open") :
    groupGate p sid chatId text mentions =
      (if !((mentions.map (fun ms => ms.any (fun m => m.name == "bot"))).getD false) &&
          !(p.mentionRegexes.any (fun re => re text)) then
        some "Bot not mentioned in group message, ignoring"
      else none) := by
  unfold groupGate
  simp [hp]

/-- C5: on a group text message under the open group policy, the message is
forwarded exactly when the vendor mention list carries an entry named bot
or some host mention pattern matches the text; the decision does not depend
on the per-group configuration map or on groupAllowFrom. -/
theorem groupOpenPolicyMentionGate (p : PolicyParams) (ev : MessageEvent)
    (text : String) (hm : ev.messageType = "text") (hc : ev.content = some text)
    (ht : jsTrim text ≠ "") (hg : ev.chatType = "group")
    (hp : p.groupPolicy = "open") :
    (handleIncomingMessage p ev = .forwarded (forwardContext p ev text) ↔
      (∃ m ∈ ev.mentions.getD [], m.name = "bot") ∨
      (∃ re ∈ p.mentionRegexes, re text = true)) ∧
    (∀ gcs gaf,
      handleIncomingMessage
        { p with groupsConfig := gcs, groupAllowFrom := gaf } ev =
      handleIncomingMessage p ev) := by
  have hmap : ∀ (o : Option (List Mention)) (f : Mention → Bool),
      (o.map (fun ms => ms.any f)).getD false = (o.getD []).any f := by
    intro o f
    cases o <;> rfl
  constructor
  · rw [handleIncomingMessage_group_eq p ev text hm hc ht hg,
      groupGate_open p (eventSenderId ev) ev.chatId text ev.mentions hp, hmap]
    have hP : (∃ m ∈ ev.mentions.getD [], m.name = "bot") ↔
        ((ev.mentions.getD []).any (fun m => m.name == "bot")) = true := by
      simp [List.any_eq_true]
    have hQ : (∃ re ∈ p.mentionRegexes, re text = true) ↔
        (p.mentionRegexes.any (fun re => re text)) = true := by
      simp [List.any_eq_true]
    rw [hP, hQ]
    rcases hb : (ev.mentions.getD []).any (fun m => m.name == "bot") with _ | _ <;>
      rcases hr : p.mentionRegexes.any (fun re => re text) with _ | _ <;>
      simp
  · intro gcs gaf
    rw [handleIncomingMessage_group_eq
        { p with groupsConfig := gcs, groupAllowFrom := gaf } ev text hm hc ht hg,
      handleIncomingMessage_group_eq p ev text hm hc ht hg,
      groupGate_open { p with groupsConfig := gcs, groupAllowFrom := gaf }
        (eventSenderId ev) ev.chatId text ev.mentions hp,
      groupGate_open p (eventSenderId ev) ev.chatId text ev.mentions hp]
    rfl

/-- Open-policy parameters with no group configuration at all. -/
def openGroupParams : PolicyParams where
  groupPolicy := "open"

/-- A group text message whose vendor mention list names the bot. -/
def groupMsgMentioningBot : MessageEvent where
  senderOpenId := some "ou_3"
  messageId := "om_3"
  chatId := "oc_h"
  chatType := "group"
  messageType := "text"
  content := some "hello bot"
  mentions := some [{ name := "bot", openId := some "ou_bot" }]

/-- C5 witness: a bot mention under the open policy forwards the message. -/
theorem groupOpenPolicyMentionGateWitness :
    handleIncomingMessage openGroupParams groupMsgMentioningBot =
      .forwarded (forwardContext openGroupParams groupMsgMentioningBot "hello bot") := by
  refine (groupOpenPolicyMentionGate openGroupParams groupMsgMentioningBot
    "hello bot" rfl rfl (by decide) rfl rfl).1.mpr ?_
  exact Or.inl ⟨{ name := "bot", openId := some "ou_bot" }, by simp [groupMsgMentioningBot], rfl⟩

/-- C10 witness: the theorem applied to a whitespace-only direct message. -/
theorem emptyTextDroppedBeforePolicyWitness :
    handleIncomingMessage pairingParams { strangerDm with content := some "  " } =
      .dropped none :=
  emptyTextDroppedBeforePolicy pairingParams
    { strangerDm with content := some "  " } "  " rfl rfl (by decide)

/-- Field-level unfolding of resolveFeishuAccount at a named account id that
is present in the accounts mapping. -/
theorem resolveFeishuAccount_named_fields (env : Env) (cfg : CoreConfig)
    (fc : ChannelConfig) (id : String) (acc : AccountConfig)
    (hfc : cfg.feishu = some fc) (hid : id ≠ DEFAULT_ACCOUNT_ID)
    (hacc : lookupAccount (fc.accounts.getD []) id = some acc) :
    (resolveFeishuAccount env cfg (some id)).accountId = id ∧
    (resolveFeishuAccount env cfg (some id)).config = mergeConfig fc.toAccountConfig acc ∧
    (resolveFeishuAccount env cfg (some id)).appId =
      ((acc.appId <|> fc.appId) <|> (env.feishuAppId <|> env.larkAppId)) ∧
    (resolveFeishuAccount env cfg (some id)).appSecret =
      ((acc.appSecret <|> fc.appSecret) <|> (env.feishuAppSecret <|> env.larkAppSecret)) ∧
    (resolveFeishuAccount env cfg (some id)).encryptKey =
      ((acc.encryptKey <|> fc.encryptKey) <|> (env.feishuEncryptKey <|> env.larkEncryptKey)) ∧
    (resolveFeishuAccount env cfg (some id)).verificationToken =
      ((acc.verificationToken <|> fc.verificationToken) <|>
        (env.feishuVerificationToken <|> env.larkVerificationToken)) ∧
    (resolveFeishuAccount env cfg (some id)).name = (acc.name <|> fc.name) := by
  unfold resolveFeishuAccount
  simp [hfc, hacc, hid, mergeConfig]

/-- C6: for a named account the resolver merges with the precedence the
spec states: the named account's explicit field wins, then the base field,
then the primary-vendor environment variable, then the alias-vendor one;
and with only an appSecret in config and the app id supplied only by the
primary environment variable, the resolved account is configured. -/
theorem resolveAccountPrecedence (env : Env) (cfg : CoreConfig)
    (fc : ChannelConfig) (id : String) (acc : AccountConfig)
    (hfc : cfg.feishu = some fc) (hid : id ≠ DEFAULT_ACCOUNT_ID)
    (hacc : lookupAccount (fc.accounts.getD []) id = some acc) :
    (∀ v, acc.appId = some v →
      (resolveFeishuAccount env cfg (some id)).appId = some v) ∧
    (acc.appId = none → ∀ v, fc.appId = some v →
      (resolveFeishuAccount env cfg (some id)).appId = some v) ∧
    (acc.appId = none → fc.appId = none → ∀ v, env.feishuAppId = some v →
      (resolveFeishuAccount env cfg (some id)).appId = some v) ∧
    (acc.appId = none → fc.appId = none → env.feishuAppId = none →
      (resolveFeishuAccount env cfg (some id)).appId = env.larkAppId) ∧
    (∀ v, acc.appSecret = some v →
      (resolveFeishuAccount env cfg (some id)).appSecret = some v) ∧
    (acc.appSecret = none → ∀ v, fc.appSecret = some v →
      (resolveFeishuAccount env cfg (some id)).appSecret = some v) ∧
    (acc.appSecret = none → fc.appSecret = none → ∀ v, env.feishuAppSecret = some v →
      (resolveFeishuAccount env cfg (some id)).appSecret = some v) ∧
    (acc.appSecret = none → fc.appSecret = none → env.feishuAppSecret = none →
      (resolveFeishuAccount env cfg (some id)).appSecret = env.larkAppSecret) ∧
    (∀ v, acc.name = some v →
      (resolveFeishuAccount env cfg (some id)).name = some v) ∧
    (acc.name = none → (resolveFeishuAccount env cfg (some id)).name = fc.name) ∧
    (resolveFeishuAccount { feishuAppId := some "cli_env" }
      { feishu := some { appSecret := some "sec" } } none).configured = true := by
  obtain ⟨-, -, hAppId, hAppSecret, -, -, hName⟩ :=
    resolveFeishuAccount_named_fields env cfg fc id acc hfc hid hacc
  refine ⟨?_, ?_, ?_, ?_, ?_, ?_, ?_, ?_, ?_, ?_, by decide⟩
  · intro v hv
    rw [hAppId, hv]
    rfl
  · intro h0 v hv
    rw [hAppId, h0, hv]
    rfl
  · intro h0 h1 v hv
    rw [hAppId, h0, h1, hv]
    rfl
  · intro h0 h1 h2
    rw [hAppId, h0, h1, h2]
    rfl
  · intro v hv
    rw [hAppSecret, hv]
    rfl
  · intro h0 v hv
    rw [hAppSecret, h0, hv]
    rfl
  · intro h0 h1 v hv
    rw [hAppSecret, h0, h1, hv]
    rfl
  · intro h0 h1 h2
    rw [hAppSecret, h0, h1, h2]
    rfl
  · intro v hv
    rw [hName, hv]
    rfl
  · intro h0
    rw [hName, h0]
    rfl

/-- A concrete two-account configuration: the base has its own credentials
and the named account work overrides the app id only. -/
def twoAccountCfg : CoreConfig where
  feishu := some
    { appId := some "cli_base"
      appSecret := some "base_secret"
      accounts := some [("work", { appId := some "cli_named" })] }

/-- C6 witness: the named account's appId wins over the base value and over
both environment variables, and the appSecret falls through to the base. -/
theorem resolveAccountPrecedenceWitness :
    (resolveFeishuAccount
      { feishuAppId := some "cli_env", larkAppId := some "cli_alias" }
      twoAccountCfg (some "work")).appId = some "cli_named" ∧
    (resolveFeishuAccount
      { feishuAppId := some "cli_env", larkAppId := some "cli_alias" }
      twoAccountCfg (some "work")).appSecret = some "base_secret" := by
  have h := resolveAccountPrecedence
    { feishuAppId := some "cli_env", larkAppId := some "cli_alias" }
    twoAccountCfg
    { appId := some "cli_base", appSecret := some "base_secret"
      accounts := some [("work", { appId := some "cli_named" })] }
    "work" { appId := some "cli_named" } rfl (by decide) (by decide)
  exact ⟨h.1 "cli_named" rfl, (h.2.2.2.2.2.1 rfl "base_secret") rfl⟩

/-- An optional string is truthy exactly when it holds a non-empty value. -/
theorem truthyStr_iff (o : Option String) :
    truthyStr o = true ↔ ∃ s, o = some s ∧ s ≠ "" := by
  cases o with
  | none => simp [truthyStr]
  | some s => simp [truthyStr]

/-- C7: for every configuration and account id, the resolved account is
configured exactly when both the post-fallback appId and appSecret are
present and non-empty, and enabled exactly when the merged config does not
explicitly disable it and it is configured; hence enabled implies
configured, and missing credentials only make configured false, the
resolver being a total function that never throws. -/
theorem resolvedAccountConfiguredEnabled (env : Env) (cfg : CoreConfig)
    (accountId : Option String) :
    ((resolveFeishuAccount env cfg accountId).configured = true ↔
      (∃ s, (resolveFeishuAccount env cfg accountId).appId = some s ∧ s ≠ "") ∧
      (∃ s, (resolveFeishuAccount env cfg accountId).appSecret = some s ∧ s ≠ "")) ∧
    ((resolveFeishuAccount env cfg accountId).enabled = true ↔
      (resolveFeishuAccount env cfg accountId).config.enabled ≠ some false ∧
      (resolveFeishuAccount env cfg accountId).configured = true) ∧
    ((resolveFeishuAccount env cfg accountId).enabled = true →
      (resolveFeishuAccount env cfg accountId).configured = true) := by
  have hconf : (resolveFeishuAccount env cfg accountId).configured =
      (truthyStr (resolveFeishuAccount env cfg accountId).appId &&
       truthyStr (resolveFeishuAccount env cfg accountId).appSecret) := rfl
  have hen : (resolveFeishuAccount env cfg accountId).enabled =
      (((resolveFeishuAccount env cfg accountId).config.enabled != some false) &&
       (resolveFeishuAccount env cfg accountId).configured) := rfl
  refine ⟨?_, ?_, ?_⟩
  · rw [hconf, Bool.and_eq_true, truthyStr_iff, truthyStr_iff]
  · rw [hen, Bool.and_eq_true, bne_iff_ne]
  · intro h
    rw [hen, Bool.and_eq_true] at h
    exact h.2

/-- C7 witness: the characterization applied to a concrete configured and
enabled account. -/
theorem resolvedAccountConfiguredEnabledWitness :
    (resolveFeishuAccount {} twoAccountCfg none).configured = true :=
  (resolvedAccountConfiguredEnabled {} twoAccountCfg none).2.2 (by decide)

/-- Set insertion keeps the list duplicate-free. -/
theorem insertUnique_nodup (ids : List String) (id : String) (h : ids.Nodup) :
    (insertUnique ids id).Nodup := by
  unfold insertUnique
  split
  · exact h
  · rename_i hc
    rw [List.nodup_append]
    refine ⟨h, List.nodup_singleton id, ?_⟩
    intro x hx hx'
    rw [List.mem_singleton] at hx'
    subst hx'
    exact hc (List.elem_iff.mpr hx)

/-- Set insertion makes the inserted element a member. -/
theorem mem_insertUnique_self (ids : List String) (id : String) :
    id ∈ insertUnique ids id := by
  unfold insertUnique
  split
  · rename_i hc
    exact List.elem_iff.mp hc
  · exact List.mem_append_right _ (List.mem_singleton.mpr rfl)

/-- Set insertion keeps existing members. -/
theorem mem_insertUnique_of_mem (ids : List String) (id x : String) (h : x ∈ ids) :
    x ∈ insertUnique ids id := by
  unfold insertUnique
  split
  · exact h
  · exact List.mem_append_left _ h

/-- The accounts fold keeps the accumulator duplicate-free. -/
theorem foldl_insertUnique_nodup (accs : List (String × AccountConfig))
    (ids : List String) (h : ids.Nodup) :
    (accs.foldl (fun a p => insertUnique a p.1) ids).Nodup := by
  induction accs generalizing ids with
  | nil => exact h
  | cons hd tl ih => exact ih _ (insertUnique_nodup _ _ h)

/-- The accounts fold keeps accumulator members. -/
theorem mem_foldl_insertUnique_of_mem (accs : List (String × AccountConfig))
    (ids : List String) (x : String) (h : x ∈ ids) :
    x ∈ accs.foldl (fun a p => insertUnique a p.1) ids := by
  induction accs generalizing ids with
  | nil => exact h
  | cons hd tl ih => exact ih _ (mem_insertUnique_of_mem _ _ _ h)

/-- Every mapping key ends up in the accounts fold. -/
theorem key_mem_foldl_insertUnique (accs : List (String × AccountConfig))
    (ids : List String) (k : String) (h : k ∈ accs.map Prod.fst) :
    k ∈ accs.foldl (fun a p => insertUnique a p.1) ids := by
  induction accs generalizing ids with
  | nil => simp at h
  | cons hd tl ih =>
    rw [List.map_cons, List.mem_cons] at h
    rcases h with h | h
    · subst h
      exact mem_foldl_insertUnique_of_mem tl _ _ (mem_insertUnique_self _ _)
    · exact ih _ h

/-- C8: listFeishuAccountIds is duplicate-free; it is empty when the vendor
section is missing; it contains the default id whenever the base config has
a non-empty appId or appSecret; it contains every key of the named-accounts
mapping; it is exactly the default id when no credentials and no named
accounts exist and enabled is not explicitly false; and it is empty when
enabled is explicitly false and neither base credentials nor named accounts
exist. -/
theorem listAccountIdsSpec (cfg : CoreConfig) :
    (listFeishuAccountIds cfg).Nodup ∧
    (cfg.feishu = none → listFeishuAccountIds cfg = []) ∧
    (∀ fc, cfg.feishu = some fc →
      ((truthyStr fc.appId || truthyStr fc.appSecret) = true →
        DEFAULT_ACCOUNT_ID ∈ listFeishuAccountIds cfg) ∧
      (∀ k, k ∈ (fc.accounts.getD []).map Prod.fst →
        k ∈ listFeishuAccountIds cfg) ∧
      ((truthyStr fc.appId || truthyStr fc.appSecret) = false →
        fc.accounts.getD [] = [] → fc.enabled ≠ some false →
        listFeishuAccountIds cfg = [DEFAULT_ACCOUNT_ID]) ∧
      (fc.enabled = some false →
        (truthyStr fc.appId || truthyStr fc.appSecret) = false →
        fc.accounts.getD [] = [] →
        listFeishuAccountIds cfg = [])) := by
  cases hf : cfg.feishu with
  | none =>
    unfold listFeishuAccountIds
    rw [hf]
    simp [hf]
  | some fc =>
    have heq : listFeishuAccountIds cfg =
        (if ((fc.accounts.getD []).foldl (fun a p => insertUnique a p.1)
            (if truthyStr fc.appId || truthyStr fc.appSecret then
              insertUnique [] DEFAULT_ACCOUNT_ID
            else [])).length == 0 && fc.enabled != some false then
          insertUnique ((fc.accounts.getD []).foldl (fun a p => insertUnique a p.1)
            (if truthyStr fc.appId || truthyStr fc.appSecret then
              insertUnique [] DEFAULT_ACCOUNT_ID
            else [])) DEFAULT_ACCOUNT_ID
        else
          (fc.accounts.getD []).foldl (fun a p => insertUnique a p.1)
            (if truthyStr fc.appId || truthyStr fc.appSecret then
              insertUnique [] DEFAULT_ACCOUNT_ID
            else [])) := by
      unfold listFeishuAccountIds
      rw [hf]
    have hbase : (if truthyStr fc.appId || truthyStr fc.appSecret then
        insertUnique [] DEFAULT_ACCOUNT_ID else ([] : List String)).Nodup := by
      split
      · exact insertUnique_nodup [] _ List.nodup_nil
      · exact List.nodup_nil
    have hgen : ∀ base : List String, base.Nodup →
        (if ((fc.accounts.getD []).foldl (fun a p => insertUnique a p.1) base).length
            == 0 && fc.enabled != some false then
          insertUnique ((fc.accounts.getD []).foldl (fun a p => insertUnique a p.1)
            base) DEFAULT_ACCOUNT_ID
        else
          (fc.accounts.getD []).foldl (fun a p => insertUnique a p.1) base).Nodup := by
      intro base hb
      have h1 := foldl_insertUnique_nodup (fc.accounts.getD []) base hb
      split
      · exact insertUnique_nodup _ _ h1
      · exact h1
    have hkeep : ∀ (base : List String) (x : String),
        x ∈ (fc.accounts.getD []).foldl (fun a p => insertUnique a p.1) base →
        x ∈ (if ((fc.accounts.getD []).foldl (fun a p => insertUnique a p.1)
              base).length == 0 && fc.enabled != some false then
            insertUnique ((fc.accounts.getD []).foldl (fun a p => insertUnique a p.1)
              base) DEFAULT_ACCOUNT_ID
          else
            (fc.accounts.getD []).foldl (fun a p => insertUnique a p.1) base) := by
      intro base x hx
      split
      · exact mem_insertUnique_of_mem _ _ _ hx
      · exact hx
    refine ⟨?_, ?_, ?_⟩
    · rw [heq]
      exact hgen _ hbase
    · intro h
      exact absurd h (by simp)
    · intro fc' hfc'
      have hsame : fc' = fc := (Option.some_injective _ hfc').symm
      subst hsame
      refine ⟨?_, ?_, ?_, ?_⟩
      · intro hcred
        rw [heq]
        refine hkeep _ _ (mem_foldl_insertUnique_of_mem _ _ _ ?_)
        rw [if_pos hcred]
        exact mem_insertUnique_self [] _
      · intro k hk
        rw [heq]
        exact hkeep _ _ (key_mem_foldl_insertUnique _ _ _ hk)
      · intro hcred haccs hen
        rw [heq, hcred, haccs]
        simp [bne_iff_ne.mpr hen, insertUnique]
      · intro hen hcred haccs
        rw [heq, hcred, haccs]
        simp [hen]

/-- C8 witness: an enabled but credential-less section still lists the
default account id. -/
theorem listAccountIdsSpecWitness :
    listFeishuAccountIds { feishu := some {} } = [DEFAULT_ACCOUNT_ID] :=
  ((listAccountIdsSpec { feishu := some {} }).2.2 {} rfl).2.2.1
    (by decide) (by decide) (by decide)

end Feishu
